import Mathlib

/-!
Verification development for a coupled-models MPI demo consisting of a
solver and a particle tracker that discover each other inside one MPI
universe, partition it into per-program groups, bind the two groups into
an intercommunicator, run a startup handshake and then exchange velocity
fields once per iteration.

The embedding below is a shallow model of the Python sources:
  * `partition_color`, `localRank`, `appSize`, `coupledFlag`, `group`
    model `MPIUtility.partition_by_string` together with the
    `MPI.Comm.Compare` structural coupling test used by both programs;
  * `bcast_local`, `senderDecls`, `bcastSourceValue`,
    `intercomm_broadcast_run` model `MPIUtility.intercomm_broadcast` and
    the MPI intercommunicator broadcast it wraps;
  * `configure_solver` / `configure_tracker` model the two validation
    routines;
  * `solverRun` / `trackerRun` / `coupledRun` model the straight-line
    collective-call sequence of `solver.py` and `tracker.py` as per-rank
    event traces plus an exit code;
  * `solver_velocity`, `intercomm_allgather`, `trackerField` model the
    per-iteration `Allgather` field exchange at the data level.
-/

/-- Model of the label sequence `colors = intracomm.allgather(color_string)`
followed by `colors.index(color_string)` in `partition_by_string`: the
universe is the list of labels indexed by global rank, and a rank's split
color is the first-occurrence index of its own label. -/
def partition_color (labels : List String) (r : Nat) : Nat :=
  labels.indexOf (labels.getD r "")

/-- Local rank after `intracomm.Split(color_index, key=intracomm.Get_rank())`:
ranks sharing a color are ordered by their global rank, so the local rank of
global rank `r` is the number of smaller global ranks with the same color. -/
def localRank (labels : List String) (r : Nat) : Nat :=
  ((List.range r).filter
    (fun j => partition_color labels j == partition_color labels r)).length

/-- Size of the split communicator holding global rank `r`: the number of
global ranks whose color matches the color of `r`. -/
def appSize (labels : List String) (r : Nat) : Nat :=
  ((List.range labels.length).filter
    (fun j => partition_color labels j == partition_color labels r)).length

/-- Model of `MPI.Comm.Compare(application_comm, world_comm) == MPI.UNEQUAL`:
the split communicator of rank `r` differs from the world exactly when some
rank of the universe got a different split color. -/
def coupledFlag (labels : List String) (r : Nat) : Bool :=
  (List.range labels.length).any
    (fun j => partition_color labels j != partition_color labels r)

/-- Membership of the group with split color `g`: the global ranks of the
universe whose color is `g`, in ascending global-rank order (the order
`Split` uses via `key=rank`). -/
def group (labels : List String) (g : Nat) : List Nat :=
  (List.range labels.length).filter (fun r => partition_color labels r == g)

/-- Sentinel root values used by `intercomm_broadcast`: `MPI.ROOT` on the
unique source rank, `MPI.PROC_NULL` on passive sending-group ranks, and the
sender's local rank on every receiving-group rank. -/
inductive RootSpec where
  | mpiRoot : RootSpec
  | procNull : RootSpec
  | remoteRank : Int → RootSpec
deriving DecidableEq, Repr

/-- Per-rank logic of `MPIUtility.intercomm_broadcast` before the call to
`intercomm.bcast`: the pair of the value this rank passes to `bcast` and the
root argument it resolves. On the sending side, a rank declares itself root
exactly when `local_rank == local_root`, with no validation of
`local_root`. -/
def bcast_local (send_value : Int) (local_rank : Int) (local_root : Int)
    (sending_flag : Bool) : Option Int × RootSpec :=
  if sending_flag then
    if local_rank = local_root then (some send_value, RootSpec.mpiRoot)
    else (none, RootSpec.procNull)
  else (none, RootSpec.remoteRank local_root)

/-- Declarations made by the `m` ranks of the sending group, local ranks
`0, …, m-1`, each running `intercomm_broadcast` with `sending_flag` true. -/
def senderDecls (m : Nat) (send_value local_root : Int) :
    List (Option Int × RootSpec) :=
  (List.range m).map
    (fun (r : Nat) => bcast_local send_value (r : Int) local_root true)

/-- Value sourced onto the intercommunicator: the value passed by the first
sending-group rank that resolved its root argument to `MPI.ROOT`, if any. -/
def bcastSourceValue (decls : List (Option Int × RootSpec)) : Option Int :=
  match decls.find? (fun d => d.2 == RootSpec.mpiRoot) with
  | some d => d.1
  | none => none

/-- Collective outcome of one `intercomm_broadcast` call over a channel with
`m` sending-group ranks and `k` receiving-group ranks: the sending-group
ranks (root included) get `None` back from `bcast`, and every
receiving-group rank gets the sourced value. -/
def intercomm_broadcast_run (m k : Nat) (send_value local_root : Int) :
    List (Option Int) × List (Option Int) :=
  ((senderDecls m send_value local_root).map (fun _ => none),
   List.replicate k (bcastSourceValue (senderDecls m send_value local_root)))

/-- Model of `configure_solver` in `solver.py`: one error when the grid-point
count is non-positive, one error when it is not divisible by the number of
solver ranks, zero errors otherwise.  The rank argument only gates printing
in the source. -/
def configure_solver (application_rank application_size : Nat)
    (number_grid_points : Int) : Nat :=
  if number_grid_points ≤ 0 then 1
  else if number_grid_points % (application_size : Int) ≠ 0 then 1
  else 0

/-- Model of `configure_tracker` in `tracker.py`.  Note the faithful quirk of
the source: the `number_particles <= 0` branch only prints a complaint and
does not increment `error_count`, so a non-positive particle count reports
zero errors. -/
def configure_tracker (application_rank application_size : Nat)
    (number_particles : Int) : Nat :=
  if number_particles ≤ 0 then 0
  else if number_particles % (application_size : Int) ≠ 0 then 1
  else 0

/-- Collective operations a rank takes part in, in program order. -/
inductive Event where
  | splitComm : Event
  | compareComm : Event
  | worldBcast : Nat → Nat → Event
  | createIntercomm : Event
  | interBcastSend : Nat → Nat → Event
  | interBcastRecv : Nat → Event
  | fieldAllgather : Nat → Nat → Event
deriving DecidableEq, Repr

/-- Trace of collective calls issued by one rank, plus the process exit
status (0 when the script runs to `MPI.Finalize`). -/
structure RunResult where
  trace : List Event
  exitCode : Nat
deriving DecidableEq, Repr

/-- Per-iteration exchange: three strictly sequential `Allgather` calls, one
per velocity component in the order X (0), Y (1), Z (2). -/
def exchangeLoop (iterations : Nat) : List Event :=
  (List.range iterations).flatMap
    (fun i => [Event.fieldAllgather i 0, Event.fieldAllgather i 1,
               Event.fieldAllgather i 2])

/-- Straight-line model of `solver.py` after argument parsing, for the rank
with global rank `world_rank`: partition, validate, broadcast the error
count to the whole universe from global rank 0, exit on failure, test
coupling structurally, then (if coupled) build the intercommunicator,
receive the tracker's error count over it, exit if that is nonzero, and
finally run the iteration loop (whose `Allgather` calls happen only when
coupled).  `tracker_count` is the value delivered by the tracker's directed
broadcast when that point is reached. -/
def solverRun (labels : List String) (world_rank iterations : Nat)
    (number_grid_points : Int) (tracker_count : Nat) : RunResult :=
  let ec := configure_solver (localRank labels world_rank)
      (appSize labels world_rank) number_grid_points
  if ec > 0 then ⟨[Event.splitComm, Event.worldBcast 0 ec], 1⟩
  else if coupledFlag labels world_rank then
    if tracker_count > 0 then
      ⟨[Event.splitComm, Event.worldBcast 0 ec, Event.compareComm,
        Event.createIntercomm, Event.interBcastRecv 0], 1⟩
    else
      ⟨[Event.splitComm, Event.worldBcast 0 ec, Event.compareComm,
        Event.createIntercomm, Event.interBcastRecv 0]
        ++ exchangeLoop iterations, 0⟩
  else ⟨[Event.splitComm, Event.worldBcast 0 ec, Event.compareComm], 0⟩

/-- Straight-line model of `tracker.py` after argument parsing, for the rank
with global rank `world_rank`: partition, test coupling structurally and
exit immediately when standalone, receive the solver's error count from the
universe-wide broadcast rooted at global rank 0, exit if it is nonzero,
validate locally, build the intercommunicator, send the local error count
over it as sending-group root 0, exit if that count is nonzero, then run the
iteration loop.  `solver_count` is the value global rank 0 (the solver
leader, by the launch convention the tracker's `Create_intercomm(0, world, 0)`
encodes) contributed to the universe-wide broadcast. -/
def trackerRun (labels : List String) (world_rank iterations : Nat)
    (number_particles : Int) (solver_count : Nat) : RunResult :=
  if ¬ coupledFlag labels world_rank then
    ⟨[Event.splitComm, Event.compareComm], 1⟩
  else if solver_count > 0 then
    ⟨[Event.splitComm, Event.compareComm, Event.worldBcast 0 solver_count], 1⟩
  else
    let ec := configure_tracker (localRank labels world_rank)
        (appSize labels world_rank) number_particles
    if ec > 0 then
      ⟨[Event.splitComm, Event.compareComm, Event.worldBcast 0 solver_count,
        Event.createIntercomm, Event.interBcastSend 0 ec], 1⟩
    else
      ⟨[Event.splitComm, Event.compareComm, Event.worldBcast 0 solver_count,
        Event.createIntercomm, Event.interBcastSend 0 ec]
        ++ exchangeLoop iterations, 0⟩

/-- One coupled run: solver rank `ws` and tracker rank `wt` of the same
universe, wired together by handing each run the error count the other role
contributes to the corresponding handshake broadcast. -/
def coupledRun (labels : List String) (ws wt iterations : Nat)
    (number_grid_points number_particles : Int) : RunResult × RunResult :=
  let sc := configure_solver (localRank labels ws) (appSize labels ws)
      number_grid_points
  let tc := configure_tracker (localRank labels wt) (appSize labels wt)
      number_particles
  (solverRun labels ws iterations number_grid_points tc,
   trackerRun labels wt iterations number_particles sc)

/-- Local velocity slice of one solver rank for one component:
`np.ones(grid_per_rank) * application_rank`. -/
def solver_velocity (application_rank grid_per_rank : Nat) : List Int :=
  List.replicate grid_per_rank (application_rank : Int)

/-- Data carried by one intercommunicator `Allgather` to each rank of the
other group: the concatenation of the remote group's contributions in remote
rank order. -/
def intercomm_allgather (remote_contributions : List (List Int)) : List Int :=
  (remote_contributions.map id).flatten

/-- Buffer each tracker rank holds for one component after the `Allgather`:
the slices of all `solver_size` solver ranks concatenated in solver-rank
order. -/
def trackerField (solver_size grid_per_rank : Nat) : List Int :=
  intercomm_allgather
    ((List.range solver_size).map (fun r => solver_velocity r grid_per_rank))

/-- Helper: `indexOf` returns the index of the first occurrence, so it is at
most any index holding the element. -/
theorem indexOf_le_of_getD {α : Type} [DecidableEq α] :
    ∀ (l : List α) (a d : α) (j : Nat), j < l.length →
      l.getD j d = a → l.indexOf a ≤ j := by
  intro l
  induction l with
  | nil => intro a d j hj; exact absurd hj (Nat.not_lt_zero j)
  | cons b t ih =>
    intro a d j hj h
    by_cases hba : b = a
    · rw [List.indexOf_cons_eq t hba]; exact Nat.zero_le j
    · rw [List.indexOf_cons_ne t hba]
      cases j with
      | zero => rw [List.getD_cons_zero] at h; exact absurd h hba
      | succ j' =>
        rw [List.getD_cons_succ] at h
        exact Nat.succ_le_succ (ih a d j' (Nat.lt_of_succ_lt_succ hj) h)

/-- Helper: the label of global rank `r` is a member of the label list. -/
theorem label_mem (labels : List String) (r : Nat) (hr : r < labels.length) :
    labels.getD r "" ∈ labels := by
  rw [List.getD_eq_getElem labels "" hr]
  exact List.getElem_mem hr

/-- Helper: the color of a rank is a valid index of the label list. -/
theorem partition_color_lt (labels : List String) (r : Nat)
    (hr : r < labels.length) : partition_color labels r < labels.length :=
  List.indexOf_lt_length.2 (label_mem labels r hr)

/-- Helper: the label found at a rank's color index is the rank's own
label. -/
theorem label_at_color (labels : List String) (r : Nat)
    (hr : r < labels.length) :
    labels.getD (partition_color labels r) "" = labels.getD r "" := by
  rw [List.getD_eq_getElem labels "" (partition_color_lt labels r hr)]
  exact List.getElem_indexOf (List.indexOf_lt_length.2 (label_mem labels r hr))

/-- Helper: two ranks get the same color exactly when they carry the same
label. -/
theorem partition_color_eq_iff (labels : List String) (r s : Nat)
    (hr : r < labels.length) (hs : s < labels.length) :
    partition_color labels r = partition_color labels s ↔
      labels.getD r "" = labels.getD s "" := by
  constructor
  · intro h
    have h1 := label_at_color labels r hr
    have h2 := label_at_color labels s hs
    rw [← h1, ← h2, h]
  · intro h
    unfold partition_color
    rw [h]

/-- C1: `partition_by_string` computes the split color (the group id) as the
first-occurrence index of the process's own label in the rank-ascending
sequence of all labels, so ranks sharing a label obtain the same group id
and ranks with different labels obtain different group ids. -/
theorem C1_partition_group_id (labels : List String) (r : Nat)
    (hr : r < labels.length) :
    (partition_color labels r < labels.length
      ∧ labels.getD (partition_color labels r) "" = labels.getD r ""
      ∧ ∀ j, j < partition_color labels r →
          labels.getD j "" ≠ labels.getD r "")
    ∧ ∀ s, s < labels.length →
        (labels.getD r "" = labels.getD s "" ↔
          partition_color labels r = partition_color labels s) := by
  refine ⟨⟨partition_color_lt labels r hr, label_at_color labels r hr, ?_⟩,
    ?_⟩
  · intro j hj hlab
    have hjlen : j < labels.length :=
      Nat.lt_trans hj (partition_color_lt labels r hr)
    have hle := indexOf_le_of_getD labels (labels.getD r "") "" j hjlen hlab
    exact absurd hj (Nat.not_lt.2 hle)
  · intro s hs
    exact (partition_color_eq_iff labels r s hr hs).symm

/-- Witness for C1 on the universe `["S", "S", "T", "T"]`: ranks 0 and 1
share a group id, ranks 0 and 2 do not. -/
theorem C1_partition_group_id_witness :
    partition_color ["S", "S", "T", "T"] 0 =
      partition_color ["S", "S", "T", "T"] 1
    ∧ partition_color ["S", "S", "T", "T"] 0 ≠
      partition_color ["S", "S", "T", "T"] 2 := by
  have h := C1_partition_group_id ["S", "S", "T", "T"] 0 (by decide)
  refine ⟨(h.2 1 (by decide)).1 (by decide), fun hc => ?_⟩
  exact absurd ((h.2 2 (by decide)).2 hc) (by decide)

/-- Helper: membership in the group of color `g`. -/
theorem mem_group_iff (labels : List String) (g r : Nat) :
    r ∈ group labels g ↔
      r < labels.length ∧ partition_color labels r = g := by
  unfold group
  rw [List.mem_filter, List.mem_range]
  simp

/-- Helper: within one color class, local ranks are assigned in ascending
global-rank order. -/
theorem localRank_strict_mono (labels : List String) (r s : Nat) (hrs : r < s)
    (hc : partition_color labels r = partition_color labels s) :
    localRank labels r < localRank labels s := by
  unfold localRank
  simp only [hc]
  have hsub : List.Sublist (List.range (r + 1)) (List.range s) :=
    List.range_sublist.2 hrs
  have h1 := (hsub.filter
    (fun j => partition_color labels j == partition_color labels s)).length_le
  have h2 : (List.range (r + 1)).filter
      (fun j => partition_color labels j == partition_color labels s) =
      ((List.range r).filter
        (fun j => partition_color labels j == partition_color labels s))
        ++ [r] := by
    rw [List.range_succ, List.filter_append]
    simp [hc]
  rw [h2, List.length_append] at h1
  simp only [List.length_cons, List.length_nil] at h1
  omega

/-- C9 (amended): partitioning yields a true partition — every rank of the
universe belongs to exactly one group, groups are pairwise disjoint, and
their union is the full universe — with local ranks assigned in ascending
global-rank order within each group; for the universe `["S", "S", "T", "T"]`
the S-group is `{0, 1}` with local ranks `{0, 1}` and the T-group is
`{2, 3}` with local ranks `{0, 1}`, and their group ids are the
first-occurrence indices 0 and 2 respectively. -/
theorem C9_partition (labels : List String) :
    (∀ r, r < labels.length →
      (r ∈ group labels (partition_color labels r)
        ∧ ∀ g, r ∈ group labels g → g = partition_color labels r))
    ∧ (∀ g g2, g ≠ g2 → ∀ r, r ∈ group labels g → r ∉ group labels g2)
    ∧ (∀ r, (∃ g, r ∈ group labels g) ↔ r < labels.length)
    ∧ (∀ r s, r < s → partition_color labels r = partition_color labels s →
        localRank labels r < localRank labels s)
    ∧ (group ["S", "S", "T", "T"] 0 = [0, 1]
       ∧ group ["S", "S", "T", "T"] 2 = [2, 3]
       ∧ localRank ["S", "S", "T", "T"] 0 = 0
       ∧ localRank ["S", "S", "T", "T"] 1 = 1
       ∧ localRank ["S", "S", "T", "T"] 2 = 0
       ∧ localRank ["S", "S", "T", "T"] 3 = 1) := by
  refine ⟨?_, ?_, ?_, localRank_strict_mono labels, by decide⟩
  · intro r hr
    refine ⟨(mem_group_iff labels _ r).2 ⟨hr, rfl⟩, ?_⟩
    intro g hg
    exact ((mem_group_iff labels g r).1 hg).2.symm
  · intro g g2 hne r hg hg2
    have e1 := ((mem_group_iff labels g r).1 hg).2
    have e2 := ((mem_group_iff labels g2 r).1 hg2).2
    exact hne (e1 ▸ e2 ▸ rfl)
  · intro r
    constructor
    · rintro ⟨g, hg⟩
      exact ((mem_group_iff labels g r).1 hg).1
    · intro hr
      exact ⟨partition_color labels r, (mem_group_iff labels _ r).2 ⟨hr, rfl⟩⟩

/-- Witness for C9 (amended) at the scenario universe. -/
theorem C9_partition_witness :
    2 ∈ group ["S", "S", "T", "T"]
        (partition_color ["S", "S", "T", "T"] 2)
    ∧ localRank ["S", "S", "T", "T"] 2 < localRank ["S", "S", "T", "T"] 3 := by
  have h := C9_partition ["S", "S", "T", "T"]
  exact ⟨(h.1 2 (by decide)).1, h.2.2.2.1 2 3 (by decide) (by decide)⟩

/-- Counterexample to C9 as stated: in the scenario universe the T-group's
group id is the first-occurrence index 2, not 1 — there is no group with
id 1 at all. -/
theorem C9_counterexample :
    partition_color ["S", "S", "T", "T"] 2 ≠ 1
    ∧ group ["S", "S", "T", "T"] 1 = []
    ∧ partition_color ["S", "S", "T", "T"] 2 = 2 := by decide

/-- Helper: a sending-group declaration that resolved to `MPI.ROOT` passed
`send_value` to the broadcast. -/
theorem senderDecls_root_value (m : Nat) (v root : Int)
    (d : Option Int × RootSpec) (hd : d ∈ senderDecls m v root)
    (hroot : d.2 = RootSpec.mpiRoot) : d.1 = some v := by
  unfold senderDecls at hd
  rw [List.mem_map] at hd
  obtain ⟨r, _, hr⟩ := hd
  unfold bcast_local at hr
  by_cases hc : (r : Int) = root
  · rw [if_pos rfl, if_pos hc] at hr
    rw [← hr]
  · rw [if_pos rfl, if_neg hc] at hr
    rw [← hr] at hroot
    exact absurd hroot (by simp)

/-- Helper: with a valid `local_root`, the sourced value is `send_value`. -/
theorem bcastSourceValue_of_valid (m : Nat) (v root : Int) (h0 : 0 ≤ root)
    (hm : root < (m : Int)) :
    bcastSourceValue (senderDecls m v root) = some v := by
  have hmem : bcast_local v ((root.toNat : Nat) : Int) root true ∈
      senderDecls m v root := by
    unfold senderDecls
    rw [List.mem_map]
    refine ⟨root.toNat, List.mem_range.2 ?_, rfl⟩
    omega
  have hform : bcast_local v ((root.toNat : Nat) : Int) root true =
      (some v, RootSpec.mpiRoot) := by
    unfold bcast_local
    rw [if_pos rfl, if_pos (Int.toNat_of_nonneg h0)]
  have hex : ∃ d ∈ senderDecls m v root,
      (fun d : Option Int × RootSpec => d.2 == RootSpec.mpiRoot) d = true := by
    refine ⟨_, hmem, ?_⟩
    rw [hform]
    rfl
  unfold bcastSourceValue
  obtain ⟨d, hfind⟩ := Option.isSome_iff_exists.1 (List.find?_isSome.2 hex)
  rw [hfind]
  have hp := List.find?_some hfind
  have hdmem := List.mem_of_find?_eq_some hfind
  simp only [beq_iff_eq] at hp
  exact senderDecls_root_value m v root d hdmem hp

/-- C3: over a channel with `m` sending-group ranks and `k` receiving-group
ranks, a directed broadcast with a valid sending-side root delivers the
root's `send_value` to every receiving-group rank and an absent result to
every sending-group rank (root included); exactly the sending rank whose
local rank equals `local_root` resolves to `MPI.ROOT` and contributes
`send_value`, every other sending rank contributes nothing. -/
theorem C3_intercomm_broadcast (m k : Nat) (send_value local_root : Int)
    (h0 : 0 ≤ local_root) (hm : local_root < (m : Int)) :
    (intercomm_broadcast_run m k send_value local_root).2 =
        List.replicate k (some send_value)
    ∧ (intercomm_broadcast_run m k send_value local_root).1 =
        List.replicate m none
    ∧ (∀ r : Nat, r < m →
        ((bcast_local send_value (r : Int) local_root true).2 =
            RootSpec.mpiRoot ↔ (r : Int) = local_root))
    ∧ (∀ r : Nat, r < m → (r : Int) ≠ local_root →
        (bcast_local send_value (r : Int) local_root true).1 = none) := by
  refine ⟨?_, ?_, ?_, ?_⟩
  · unfold intercomm_broadcast_run
    rw [bcastSourceValue_of_valid m send_value local_root h0 hm]
  · unfold intercomm_broadcast_run
    have hlen : (senderDecls m send_value local_root).length = m := by
      unfold senderDecls
      rw [List.length_map, List.length_range]
    rw [List.map_const', hlen]
  · intro r _
    unfold bcast_local
    by_cases hc : (r : Int) = local_root
    · rw [if_pos rfl, if_pos hc]
      simp [hc]
    · rw [if_pos rfl, if_neg hc]
      simp [hc]
  · intro r _ hne
    unfold bcast_local
    rw [if_pos rfl, if_neg hne]

/-- Witness for C3 in the scenario of the spec: sending group of size 3,
receiving group of size 2, `local_root = 1`, value 42 — both receivers
obtain 42, all three senders obtain nothing, and only local rank 1 resolves
to `MPI.ROOT`. -/
theorem C3_intercomm_broadcast_witness :
    (intercomm_broadcast_run 3 2 42 1).2 = List.replicate 2 (some 42)
    ∧ (intercomm_broadcast_run 3 2 42 1).1 = List.replicate 3 none
    ∧ (bcast_local 42 (1 : Int) 1 true).2 = RootSpec.mpiRoot
    ∧ (bcast_local 42 (0 : Int) 1 true).1 = none
    ∧ (bcast_local 42 (2 : Int) 1 true).1 = none := by
  have h := C3_intercomm_broadcast 3 2 42 1 (by decide) (by decide)
  exact ⟨h.1, h.2.1, (h.2.2.1 1 (by decide)).2 (by decide),
    h.2.2.2 0 (by decide) (by decide), h.2.2.2 2 (by decide) (by decide)⟩

/-- C10: `intercomm_broadcast` never validates `local_root` — a sending rank
declares itself `MPI.ROOT` exactly when its local rank equals `local_root`,
so if `local_root` lies outside `[0, m)` every sending-group rank resolves
to `MPI.PROC_NULL`, no rank sources the broadcast, and nothing is
delivered. -/
theorem C10_no_root_validation (v : Int) :
    (∀ local_rank local_root : Int,
      ((bcast_local v local_rank local_root true).2 = RootSpec.mpiRoot ↔
        local_rank = local_root))
    ∧ (∀ (m k : Nat) (local_root : Int),
        (local_root < 0 ∨ (m : Int) ≤ local_root) →
        (∀ r : Nat, r < m →
          bcast_local v (r : Int) local_root true =
            (none, RootSpec.procNull))
        ∧ bcastSourceValue (senderDecls m v local_root) = none
        ∧ (intercomm_broadcast_run m k v local_root).2 =
            List.replicate k none) := by
  constructor
  · intro local_rank local_root
    unfold bcast_local
    by_cases hc : local_rank = local_root
    · rw [if_pos rfl, if_pos hc]
      simp [hc]
    · rw [if_pos rfl, if_neg hc]
      simp [hc]
  · intro m k local_root hout
    have hall : ∀ r : Nat, r < m →
        bcast_local v (r : Int) local_root true =
          (none, RootSpec.procNull) := by
      intro r hr
      have hne : (r : Int) ≠ local_root := by omega
      unfold bcast_local
      rw [if_pos rfl, if_neg hne]
    have hnone : bcastSourceValue (senderDecls m v local_root) = none := by
      unfold bcastSourceValue
      have hfind : (senderDecls m v local_root).find?
          (fun d => d.2 == RootSpec.mpiRoot) = none := by
        rw [List.find?_eq_none]
        intro d hd
        unfold senderDecls at hd
        rw [List.mem_map] at hd
        obtain ⟨r, hrm, hr⟩ := hd
        rw [← hr, hall r (List.mem_range.1 hrm)]
        simp
      rw [hfind]
    refine ⟨hall, hnone, ?_⟩
    unfold intercomm_broadcast_run
    rw [hnone]

/-- Witness for C10: sending group of size 3 with `local_root = 5` — every
sending rank opts out and the two receiving ranks get nothing. -/
theorem C10_no_root_validation_witness :
    bcast_local 7 (0 : Int) 5 true = (none, RootSpec.procNull)
    ∧ bcastSourceValue (senderDecls 3 7 5) = none
    ∧ (intercomm_broadcast_run 3 2 7 5).2 = List.replicate 2 none := by
  have h := (C10_no_root_validation 7).2 3 2 5 (Or.inr (by decide))
  exact ⟨h.1 0 (by decide), h.2.1, h.2.2⟩

/-- Helper: the iteration loop issues only field `Allgather` events. -/
theorem exchangeLoop_mem (n : Nat) (e : Event) (he : e ∈ exchangeLoop n) :
    ∃ i c, e = Event.fieldAllgather i c := by
  unfold exchangeLoop at he
  rw [List.mem_flatMap] at he
  obtain ⟨i, _, hi⟩ := he
  simp only [List.mem_cons, List.not_mem_nil, or_false] at hi
  rcases hi with h | h | h
  · exact ⟨i, 0, h⟩
  · exact ⟨i, 1, h⟩
  · exact ⟨i, 2, h⟩

/-- Helper: the iteration loop never constructs the channel. -/
theorem createIntercomm_notmem_exchangeLoop (n : Nat) :
    Event.createIntercomm ∉ exchangeLoop n := by
  intro h
  obtain ⟨i, c, hic⟩ := exchangeLoop_mem n _ h
  exact absurd hic (by simp)

/-- Helper: the iteration loop never performs a directed send. -/
theorem interBcastSend_notmem_exchangeLoop (n root v : Nat) :
    Event.interBcastSend root v ∉ exchangeLoop n := by
  intro h
  obtain ⟨i, c, hic⟩ := exchangeLoop_mem n _ h
  exact absurd hic (by simp)

/-- Helper: the iteration loop never performs a directed receive. -/
theorem interBcastRecv_notmem_exchangeLoop (n root : Nat) :
    Event.interBcastRecv root ∉ exchangeLoop n := by
  intro h
  obtain ⟨i, c, hic⟩ := exchangeLoop_mem n _ h
  exact absurd hic (by simp)

/-- Helper: the iteration loop never performs a universe-wide broadcast. -/
theorem worldBcast_notmem_exchangeLoop (n root v : Nat) :
    Event.worldBcast root v ∉ exchangeLoop n := by
  intro h
  obtain ⟨i, c, hic⟩ := exchangeLoop_mem n _ h
  exact absurd hic (by simp)

/-- Helper: solver branch — local validation failed. -/
theorem solverRun_eq_of_fail (labels : List String) (ws iterations : Nat)
    (g : Int) (tc : Nat)
    (h : 0 < configure_solver (localRank labels ws) (appSize labels ws) g) :
    solverRun labels ws iterations g tc =
      ⟨[Event.splitComm, Event.worldBcast 0
          (configure_solver (localRank labels ws) (appSize labels ws) g)],
        1⟩ := by
  simp [solverRun, h]

/-- Helper: solver branch — valid, coupled, tracker reported failure. -/
theorem solverRun_eq_coupled_fail (labels : List String)
    (ws iterations : Nat) (g : Int) (tc : Nat)
    (h : configure_solver (localRank labels ws) (appSize labels ws) g = 0)
    (hc : coupledFlag labels ws = true) (ht : 0 < tc) :
    solverRun labels ws iterations g tc =
      ⟨[Event.splitComm, Event.worldBcast 0 0, Event.compareComm,
        Event.createIntercomm, Event.interBcastRecv 0], 1⟩ := by
  simp [solverRun, h, hc, ht]

/-- Helper: solver branch — valid, coupled, tracker reported success. -/
theorem solverRun_eq_coupled_ok (labels : List String)
    (ws iterations : Nat) (g : Int)
    (h : configure_solver (localRank labels ws) (appSize labels ws) g = 0)
    (hc : coupledFlag labels ws = true) :
    solverRun labels ws iterations g 0 =
      ⟨[Event.splitComm, Event.worldBcast 0 0, Event.compareComm,
        Event.createIntercomm, Event.interBcastRecv 0]
        ++ exchangeLoop iterations, 0⟩ := by
  simp [solverRun, h, hc]

/-- Helper: solver branch — valid and standalone. -/
theorem solverRun_eq_uncoupled (labels : List String)
    (ws iterations : Nat) (g : Int) (tc : Nat)
    (h : configure_solver (localRank labels ws) (appSize labels ws) g = 0)
    (hc : coupledFlag labels ws = false) :
    solverRun labels ws iterations g tc =
      ⟨[Event.splitComm, Event.worldBcast 0 0, Event.compareComm], 0⟩ := by
  simp [solverRun, h, hc]

/-- Helper: tracker branch — standalone. -/
theorem trackerRun_eq_uncoupled (labels : List String)
    (wt iterations : Nat) (p : Int) (sc : Nat)
    (hc : coupledFlag labels wt = false) :
    trackerRun labels wt iterations p sc =
      ⟨[Event.splitComm, Event.compareComm], 1⟩ := by
  simp [trackerRun, hc]

/-- Helper: tracker branch — coupled, solver reported failure. -/
theorem trackerRun_eq_solver_fail (labels : List String)
    (wt iterations : Nat) (p : Int) (sc : Nat)
    (hc : coupledFlag labels wt = true) (hs : 0 < sc) :
    trackerRun labels wt iterations p sc =
      ⟨[Event.splitComm, Event.compareComm, Event.worldBcast 0 sc], 1⟩ := by
  simp [trackerRun, hc, hs]

/-- Helper: tracker branch — coupled, solver succeeded, local validation
failed.  The channel is still constructed and the nonzero count sent. -/
theorem trackerRun_eq_local_fail (labels : List String)
    (wt iterations : Nat) (p : Int)
    (hc : coupledFlag labels wt = true)
    (ht : 0 < configure_tracker (localRank labels wt) (appSize labels wt) p) :
    trackerRun labels wt iterations p 0 =
      ⟨[Event.splitComm, Event.compareComm, Event.worldBcast 0 0,
        Event.createIntercomm, Event.interBcastSend 0
          (configure_tracker (localRank labels wt) (appSize labels wt) p)],
        1⟩ := by
  simp [trackerRun, hc, ht]

/-- Helper: tracker branch — coupled and fully successful. -/
theorem trackerRun_eq_ok (labels : List String)
    (wt iterations : Nat) (p : Int)
    (hc : coupledFlag labels wt = true)
    (ht : configure_tracker (localRank labels wt) (appSize labels wt) p
      = 0) :
    trackerRun labels wt iterations p 0 =
      ⟨[Event.splitComm, Event.compareComm, Event.worldBcast 0 0,
        Event.createIntercomm, Event.interBcastSend 0 0]
        ++ exchangeLoop iterations, 0⟩ := by
  simp [trackerRun, hc, ht]

/-- Helper: every event of a solver trace is the split, the universe-wide
broadcast of the solver's own error count rooted at global rank 0, the
comparison, the channel construction, the directed receive with remote root
0, or a field exchange. -/
theorem solverRun_trace_events (labels : List String)
    (ws iterations : Nat) (g : Int) (tc : Nat) (e : Event)
    (he : e ∈ (solverRun labels ws iterations g tc).trace) :
    e = Event.splitComm
    ∨ e = Event.worldBcast 0
        (configure_solver (localRank labels ws) (appSize labels ws) g)
    ∨ e = Event.compareComm
    ∨ e = Event.createIntercomm
    ∨ e = Event.interBcastRecv 0
    ∨ ∃ i c, e = Event.fieldAllgather i c := by
  by_cases h1 : configure_solver (localRank labels ws) (appSize labels ws) g
      = 0
  · cases hc : coupledFlag labels ws with
    | false =>
      rw [solverRun_eq_uncoupled labels ws iterations g tc h1 hc] at he
      simp only [List.mem_cons, List.not_mem_nil, or_false] at he
      rw [h1]
      tauto
    | true =>
      by_cases h3 : tc = 0
      · subst h3
        rw [solverRun_eq_coupled_ok labels ws iterations g h1 hc] at he
        simp only [List.mem_append, List.mem_cons, List.not_mem_nil,
          or_false] at he
        rcases he with he | he
        · rw [h1]
          tauto
        · exact Or.inr (Or.inr (Or.inr (Or.inr (Or.inr
            (exchangeLoop_mem iterations e he)))))
      · rw [solverRun_eq_coupled_fail labels ws iterations g tc h1 hc
          (Nat.pos_of_ne_zero h3)] at he
        simp only [List.mem_cons, List.not_mem_nil, or_false] at he
        rw [h1]
        tauto
  · rw [solverRun_eq_of_fail labels ws iterations g tc
      (Nat.pos_of_ne_zero h1)] at he
    simp only [List.mem_cons, List.not_mem_nil, or_false] at he
    tauto

/-- Helper: every event of a tracker trace is the split, the comparison, the
universe-wide broadcast of the received solver error count rooted at global
rank 0, the channel construction, the directed send of the tracker's own
error count with local root 0, or a field exchange. -/
theorem trackerRun_trace_events (labels : List String)
    (wt iterations : Nat) (p : Int) (sc : Nat) (e : Event)
    (he : e ∈ (trackerRun labels wt iterations p sc).trace) :
    e = Event.splitComm
    ∨ e = Event.compareComm
    ∨ e = Event.worldBcast 0 sc
    ∨ e = Event.createIntercomm
    ∨ e = Event.interBcastSend 0
        (configure_tracker (localRank labels wt) (appSize labels wt) p)
    ∨ ∃ i c, e = Event.fieldAllgather i c := by
  cases hc : coupledFlag labels wt with
  | false =>
    rw [trackerRun_eq_uncoupled labels wt iterations p sc hc] at he
    simp only [List.mem_cons, List.not_mem_nil, or_false] at he
    tauto
  | true =>
    by_cases hs : sc = 0
    · subst hs
      by_cases ht : configure_tracker (localRank labels wt)
          (appSize labels wt) p = 0
      · rw [trackerRun_eq_ok labels wt iterations p hc ht] at he
        simp only [List.mem_append, List.mem_cons, List.not_mem_nil,
          or_false] at he
        rcases he with he | he
        · rw [ht]
          tauto
        · exact Or.inr (Or.inr (Or.inr (Or.inr (Or.inr
            (exchangeLoop_mem iterations e he)))))
      · rw [trackerRun_eq_local_fail labels wt iterations p hc
          (Nat.pos_of_ne_zero ht)] at he
        simp only [List.mem_cons, List.not_mem_nil, or_false] at he
        tauto
    · rw [trackerRun_eq_solver_fail labels wt iterations p sc hc
        (Nat.pos_of_ne_zero hs)] at he
      simp only [List.mem_cons, List.not_mem_nil, or_false] at he
      tauto

/-- C8: a tracker whose split communicator structurally equals the world
(no solver present) exits with status 1 immediately after the comparison,
issuing no further collective calls: its whole trace is the partition split
followed by the structural comparison — no world broadcast, no channel
construction, no directed broadcast, no field exchange. -/
theorem C8_standalone_tracker (labels : List String)
    (world_rank iterations : Nat) (number_particles : Int)
    (solver_count : Nat) (h : coupledFlag labels world_rank = false) :
    trackerRun labels world_rank iterations number_particles solver_count =
      ⟨[Event.splitComm, Event.compareComm], 1⟩
    ∧ (∀ root v, Event.worldBcast root v ∉
        (trackerRun labels world_rank iterations number_particles
          solver_count).trace)
    ∧ Event.createIntercomm ∉
        (trackerRun labels world_rank iterations number_particles
          solver_count).trace
    ∧ (∀ root v, Event.interBcastSend root v ∉
        (trackerRun labels world_rank iterations number_particles
          solver_count).trace)
    ∧ (∀ i c, Event.fieldAllgather i c ∉
        (trackerRun labels world_rank iterations number_particles
          solver_count).trace) := by
  have hrun : trackerRun labels world_rank iterations number_particles
      solver_count = ⟨[Event.splitComm, Event.compareComm], 1⟩ := by
    unfold trackerRun
    rw [h]
    simp
  rw [hrun]
  refine ⟨rfl, ?_, by simp, ?_, ?_⟩
  · intro root v
    simp
  · intro root v
    simp
  · intro i c
    simp

/-- Witness for C8: universe of two trackers only. -/
theorem C8_standalone_tracker_witness :
    trackerRun ["T", "T"] 0 3 8 0 =
      ⟨[Event.splitComm, Event.compareComm], 1⟩
    ∧ Event.createIntercomm ∉ (trackerRun ["T", "T"] 0 3 8 0).trace := by
  have h := C8_standalone_tracker ["T", "T"] 0 3 8 0 (by decide)
  exact ⟨h.1, h.2.2.1⟩

/-- C2 (evaluation of the code at the failing input): `configure_tracker`
returns error count 0 for a non-positive particle count — the source only
prints a complaint in that branch without incrementing `error_count`, unlike
the analogous non-positive branch of `configure_solver` which returns 1 —
so a coupled tracker launched with 0 particles proceeds into the iteration
loop and finishes with exit status 0 instead of exiting with status 1. -/
theorem C2_code_eval :
    configure_tracker 0 2 0 = 0
    ∧ configure_tracker 0 2 (-5) = 0
    ∧ configure_solver 0 2 0 = 1
    ∧ (trackerRun ["S", "T", "T"] 1 1 0 0).exitCode = 0
    ∧ Event.fieldAllgather 0 0 ∈ (trackerRun ["S", "T", "T"] 1 1 0 0).trace := by
  decide

/-- Counterexample to C4 as stated: in the coupled run over
`["S", "T", "T"]` with 5 grid points and 3 particles, the tracker's own
error count is 1 (3 particles over 2 ranks), yet the tracker still
constructs the inter-group channel — the channel is built before both
roles' error counts are known to be zero, because the final handshake
broadcast is carried over the channel itself. -/
theorem C4_counterexample :
    Event.createIntercomm ∈ (coupledRun ["S", "T", "T"] 0 1 1 5 3).2.trace
    ∧ configure_tracker (localRank ["S", "T", "T"] 1)
        (appSize ["S", "T", "T"] 1) 3 = 1
    ∧ (coupledRun ["S", "T", "T"] 0 1 1 5 3).2.exitCode = 1 := by decide

/-- C4 (amended): in every coupled run each role constructs the channel at
most once, and only when the universe-wide broadcast has delivered a zero
solver error count; the tracker constructs it before its own error count is
sent and checked, since the final handshake broadcast rides on the channel
— so channel construction is guarded by the solver's count alone, not by
both counts. -/
theorem C4_channel_after_solver_ok (labels : List String)
    (ws wt iterations : Nat) (g p : Int)
    (hsw : coupledFlag labels ws = true)
    (htw : coupledFlag labels wt = true) :
    ((coupledRun labels ws wt iterations g p).1.trace.count
        Event.createIntercomm ≤ 1
      ∧ (coupledRun labels ws wt iterations g p).2.trace.count
        Event.createIntercomm ≤ 1)
    ∧ (Event.createIntercomm ∈ (coupledRun labels ws wt iterations g p).1.trace
        ↔ configure_solver (localRank labels ws) (appSize labels ws) g = 0)
    ∧ (Event.createIntercomm ∈ (coupledRun labels ws wt iterations g p).2.trace
        ↔ configure_solver (localRank labels ws) (appSize labels ws) g = 0)
    ∧ (configure_solver (localRank labels ws) (appSize labels ws) g = 0 →
        ∃ l1 l2, (coupledRun labels ws wt iterations g p).2.trace =
            l1 ++ Event.createIntercomm :: l2
          ∧ Event.worldBcast 0 0 ∈ l1
          ∧ Event.interBcastSend 0 (configure_tracker (localRank labels wt)
              (appSize labels wt) p) ∈ l2) := by
  have hz := List.count_eq_zero.2 (createIntercomm_notmem_exchangeLoop
    iterations)
  by_cases hsc : configure_solver (localRank labels ws) (appSize labels ws) g
      = 0
  · by_cases htc : configure_tracker (localRank labels wt)
        (appSize labels wt) p = 0
    · have h1 : (coupledRun labels ws wt iterations g p).1 =
          ⟨[Event.splitComm, Event.worldBcast 0 0, Event.compareComm,
            Event.createIntercomm, Event.interBcastRecv 0]
            ++ exchangeLoop iterations, 0⟩ := by
        simp [coupledRun, solverRun, hsc, htc, hsw]
      have h2 : (coupledRun labels ws wt iterations g p).2 =
          ⟨[Event.splitComm, Event.compareComm, Event.worldBcast 0 0,
            Event.createIntercomm, Event.interBcastSend 0 0]
            ++ exchangeLoop iterations, 0⟩ := by
        simp [coupledRun, trackerRun, hsc, htc, htw]
      rw [h1, h2, hsc]
      refine ⟨⟨?_, ?_⟩, by simp, by simp, fun _ => ?_⟩
      · simp [List.count_append, List.count_cons, hz]
      · simp [List.count_append, List.count_cons, hz]
      · exact ⟨[Event.splitComm, Event.compareComm, Event.worldBcast 0 0],
          Event.interBcastSend 0 0 :: exchangeLoop iterations, by simp,
          by simp, by simp [htc]⟩
    · have htc1 : configure_tracker (localRank labels wt)
          (appSize labels wt) p > 0 := Nat.pos_of_ne_zero htc
      have h1 : (coupledRun labels ws wt iterations g p).1 =
          ⟨[Event.splitComm, Event.worldBcast 0 0, Event.compareComm,
            Event.createIntercomm, Event.interBcastRecv 0], 1⟩ := by
        simp [coupledRun, solverRun, hsc, hsw, htc1, Nat.not_eq_zero_of_lt
          htc1]
      have h2 : (coupledRun labels ws wt iterations g p).2 =
          ⟨[Event.splitComm, Event.compareComm, Event.worldBcast 0 0,
            Event.createIntercomm, Event.interBcastSend 0
              (configure_tracker (localRank labels wt) (appSize labels wt)
                p)], 1⟩ := by
        simp [coupledRun, trackerRun, hsc, htw, htc1]
      rw [h1, h2, hsc]
      refine ⟨⟨by simp [List.count_cons], by simp [List.count_cons]⟩,
        by simp, by simp, fun _ => ?_⟩
      exact ⟨[Event.splitComm, Event.compareComm, Event.worldBcast 0 0],
        [Event.interBcastSend 0 (configure_tracker (localRank labels wt)
          (appSize labels wt) p)], by simp, by simp, by simp⟩
  · have hsc1 : configure_solver (localRank labels ws) (appSize labels ws) g
        > 0 := Nat.pos_of_ne_zero hsc
    have h1 : (coupledRun labels ws wt iterations g p).1 =
        ⟨[Event.splitComm, Event.worldBcast 0 (configure_solver
          (localRank labels ws) (appSize labels ws) g)], 1⟩ := by
      simp [coupledRun, solverRun, hsc1]
    have h2 : (coupledRun labels ws wt iterations g p).2 =
        ⟨[Event.splitComm, Event.compareComm, Event.worldBcast 0
          (configure_solver (localRank labels ws) (appSize labels ws) g)],
          1⟩ := by
      simp [coupledRun, trackerRun, htw, hsc1]
    rw [h1, h2]
    refine ⟨⟨by simp [List.count_cons], by simp [List.count_cons]⟩,
      by simp [hsc], by simp [hsc], fun hcontra => absurd hcontra hsc⟩

/-- Witness for C4 (amended) on the universe `["S", "T", "T"]`. -/
theorem C4_channel_after_solver_ok_witness :
    Event.createIntercomm ∈ (coupledRun ["S", "T", "T"] 0 1 1 4 4).2.trace := by
  have h := C4_channel_after_solver_ok ["S", "T", "T"] 0 1 1 4 4
    (by decide) (by decide)
  exact h.2.2.1.2 (by decide)

/-- C5: with grid-point-count 10 and solver group size 3, local validation
yields error count 1 (10 is not divisible by 3); the universe-wide
broadcast rooted at global rank 0 carries that 1 to the solver ranks and to
every coupled tracker rank, and both roles stop with exit status 1 without
issuing a single field exchange. -/
theorem C5_solver_config_failure (labels : List String)
    (ws wt iterations : Nat) (p : Int)
    (hsize : appSize labels ws = 3)
    (htw : coupledFlag labels wt = true) :
    configure_solver (localRank labels ws) (appSize labels ws) 10 = 1
    ∧ (coupledRun labels ws wt iterations 10 p).1 =
        ⟨[Event.splitComm, Event.worldBcast 0 1], 1⟩
    ∧ (coupledRun labels ws wt iterations 10 p).2 =
        ⟨[Event.splitComm, Event.compareComm, Event.worldBcast 0 1], 1⟩
    ∧ (∀ i c, Event.fieldAllgather i c ∉
        (coupledRun labels ws wt iterations 10 p).1.trace)
    ∧ (∀ i c, Event.fieldAllgather i c ∉
        (coupledRun labels ws wt iterations 10 p).2.trace) := by
  have hsc : configure_solver (localRank labels ws) (appSize labels ws) 10
      = 1 := by
    rw [hsize]
    rfl
  have h1 : (coupledRun labels ws wt iterations 10 p).1 =
      ⟨[Event.splitComm, Event.worldBcast 0 1], 1⟩ := by
    show solverRun labels ws iterations 10
        (configure_tracker (localRank labels wt) (appSize labels wt) p) = _
    rw [solverRun_eq_of_fail labels ws iterations 10 _ (by rw [hsc]; exact
      Nat.one_pos), hsc]
  have h2 : (coupledRun labels ws wt iterations 10 p).2 =
      ⟨[Event.splitComm, Event.compareComm, Event.worldBcast 0 1], 1⟩ := by
    show trackerRun labels wt iterations p
        (configure_solver (localRank labels ws) (appSize labels ws) 10) = _
    rw [hsc]
    exact trackerRun_eq_solver_fail labels wt iterations p 1 htw Nat.one_pos
  refine ⟨hsc, h1, h2, ?_, ?_⟩
  · intro i c
    rw [h1]
    simp
  · intro i c
    rw [h2]
    simp

/-- Witness for C5: three solvers and one coupled tracker. -/
theorem C5_solver_config_failure_witness :
    (coupledRun ["S", "S", "S", "T"] 0 3 2 10 4).1 =
      ⟨[Event.splitComm, Event.worldBcast 0 1], 1⟩
    ∧ (coupledRun ["S", "S", "S", "T"] 0 3 2 10 4).2 =
      ⟨[Event.splitComm, Event.compareComm, Event.worldBcast 0 1], 1⟩ := by
  have h := C5_solver_config_failure ["S", "S", "S", "T"] 0 3 2 4
    (by decide) (by decide)
  exact ⟨h.2.1, h.2.2.1⟩

/-- C6: the one additional directed broadcast of the handshake always has
the tracker as the sending group with local root 0 and carries the
tracker's own local error count (the solver's directed call is a pure
receive); every universe-wide broadcast either role takes part in is rooted
at global rank 0 and carries only the solver's error count; and when the
handshake is reached with a nonzero tracker count, the solver exits with
status 1. -/
theorem C6_handshake_direction (labels : List String)
    (ws wt iterations : Nat) (g p : Int) :
    (∀ root v, Event.interBcastSend root v ∈
        (coupledRun labels ws wt iterations g p).2.trace →
      root = 0 ∧ v = configure_tracker (localRank labels wt)
        (appSize labels wt) p)
    ∧ (∀ root v, Event.interBcastSend root v ∉
        (coupledRun labels ws wt iterations g p).1.trace)
    ∧ (∀ root, Event.interBcastRecv root ∉
        (coupledRun labels ws wt iterations g p).2.trace)
    ∧ (∀ root v, Event.worldBcast root v ∈
        (coupledRun labels ws wt iterations g p).1.trace →
      root = 0 ∧ v = configure_solver (localRank labels ws)
        (appSize labels ws) g)
    ∧ (∀ root v, Event.worldBcast root v ∈
        (coupledRun labels ws wt iterations g p).2.trace →
      root = 0 ∧ v = configure_solver (localRank labels ws)
        (appSize labels ws) g)
    ∧ (coupledFlag labels ws = true →
        configure_solver (localRank labels ws) (appSize labels ws) g = 0 →
        0 < configure_tracker (localRank labels wt) (appSize labels wt) p →
        (coupledRun labels ws wt iterations g p).1.exitCode = 1) := by
  refine ⟨?_, ?_, ?_, ?_, ?_, ?_⟩
  · intro root v hmem
    have h := trackerRun_trace_events labels wt iterations p _ _ hmem
    rcases h with h | h | h | h | h | ⟨i, c, h⟩ <;> simp_all
  · intro root v hmem
    have h := solverRun_trace_events labels ws iterations g _ _ hmem
    rcases h with h | h | h | h | h | ⟨i, c, h⟩ <;> simp_all
  · intro root hmem
    have h := trackerRun_trace_events labels wt iterations p _ _ hmem
    rcases h with h | h | h | h | h | ⟨i, c, h⟩ <;> simp_all
  · intro root v hmem
    have h := solverRun_trace_events labels ws iterations g _ _ hmem
    rcases h with h | h | h | h | h | ⟨i, c, h⟩ <;> simp_all
  · intro root v hmem
    have h := trackerRun_trace_events labels wt iterations p _ _ hmem
    rcases h with h | h | h | h | h | ⟨i, c, h⟩ <;> simp_all
  · intro hsw hsc htc
    show RunResult.exitCode (solverRun labels ws iterations g
      (configure_tracker (localRank labels wt) (appSize labels wt) p)) = 1
    rw [solverRun_eq_coupled_fail labels ws iterations g _ hsc hsw htc]

/-- Witness for C6: the solver aborts when the coupled tracker's particle
count does not divide over the tracker ranks. -/
theorem C6_handshake_direction_witness :
    (coupledRun ["S", "T", "T"] 0 1 1 4 3).1.exitCode = 1 := by
  have h := C6_handshake_direction ["S", "T", "T"] 0 1 1 4 3
  exact h.2.2.2.2.2 (by decide) (by decide) (by decide)

/-- Helper: length of a concatenation of `n` slices of `q` entries each. -/
theorem length_flatMap_replicate (q : Nat) (f : Nat → Int) :
    ∀ n, ((List.range n).flatMap
      (fun (r : Nat) => List.replicate q (f r))).length = n * q := by
  intro n
  induction n with
  | zero => simp
  | succ m ih =>
    rw [List.range_succ, List.flatMap_append, List.length_append, ih]
    simp [Nat.succ_mul]

/-- C7: in a fully successful coupled run over a grid of `s * q` points with
`s` solver ranks, both roles' traces end in the per-iteration loop of
exactly three strictly sequential cross-group `Allgather` transfers per
iteration, in component order X (0), Y (1), Z (2); each solver rank's slice
has the per-rank size `grid / s = q`; the tracker side contributes an empty
placeholder (so the producing side receives nothing back); and after the
exchange each tracker rank holds, for each component, the concatenation of
all `s` solver slices in producing-rank order, `s * q` entries in total. -/
theorem C7_field_exchange (labels : List String)
    (ws wt iterations s q t : Nat) (p : Int)
    (hs : appSize labels ws = s) (hspos : 0 < s) (hq : 0 < q)
    (hsw : coupledFlag labels ws = true)
    (htw : coupledFlag labels wt = true)
    (htc : configure_tracker (localRank labels wt) (appSize labels wt) p
      = 0) :
    (coupledRun labels ws wt iterations ((s : Int) * (q : Int)) p).1.trace =
      [Event.splitComm, Event.worldBcast 0 0, Event.compareComm,
       Event.createIntercomm, Event.interBcastRecv 0]
       ++ exchangeLoop iterations
    ∧ (coupledRun labels ws wt iterations ((s : Int) * (q : Int)) p).2.trace
      = [Event.splitComm, Event.compareComm, Event.worldBcast 0 0,
         Event.createIntercomm, Event.interBcastSend 0 0]
         ++ exchangeLoop iterations
    ∧ exchangeLoop iterations = (List.range iterations).flatMap
        (fun i => [Event.fieldAllgather i 0, Event.fieldAllgather i 1,
                   Event.fieldAllgather i 2])
    ∧ (((s : Int) * (q : Int)) / ((s : Int))).toNat = q
    ∧ (∀ r, (solver_velocity r q).length = q)
    ∧ trackerField s q = (List.range s).flatMap
        (fun (r : Nat) => List.replicate q ((r : Int)))
    ∧ (trackerField s q).length = s * q
    ∧ intercomm_allgather (List.replicate t []) = [] := by
  have hsc : configure_solver (localRank labels ws) (appSize labels ws)
      ((s : Int) * (q : Int)) = 0 := by
    rw [hs]
    unfold configure_solver
    have hpos : (0 : Int) < (s : Int) * (q : Int) := by
      exact_mod_cast Nat.mul_pos hspos hq
    rw [if_neg (by omega)]
    rw [if_neg (by simp [Int.mul_emod_right])]
  refine ⟨?_, ?_, rfl, ?_, ?_, ?_, ?_, ?_⟩
  · show (solverRun labels ws iterations ((s : Int) * (q : Int))
      (configure_tracker (localRank labels wt) (appSize labels wt) p)).trace
        = _
    rw [htc, solverRun_eq_coupled_ok labels ws iterations _ hsc hsw]
  · show (trackerRun labels wt iterations p
      (configure_solver (localRank labels ws) (appSize labels ws)
        ((s : Int) * (q : Int)))).trace = _
    rw [hsc, trackerRun_eq_ok labels wt iterations p htw htc]
  · rw [Int.mul_ediv_cancel_left _
      (Int.natCast_ne_zero.2 (Nat.pos_iff_ne_zero.1 hspos))]
    simp
  · intro r
    unfold solver_velocity
    rw [List.length_replicate]
  · unfold trackerField intercomm_allgather solver_velocity
    rw [List.map_id]
    rfl
  · unfold trackerField intercomm_allgather solver_velocity
    rw [List.map_id]
    show ((List.range s).flatMap
      (fun (r : Nat) => List.replicate q ((r : Int)))).length = s * q
    exact length_flatMap_replicate q _ s
  · unfold intercomm_allgather
    rw [List.map_id]
    induction t with
    | zero => rfl
    | succ m ih =>
      rw [List.replicate_succ, List.flatten_cons, List.nil_append]
      exact ih

/-- Witness for C7: two solver ranks, three grid points per rank — the
tracker's received buffer is the rank-ordered concatenation. -/
theorem C7_field_exchange_witness :
    trackerField 2 3 = [0, 0, 0, 1, 1, 1]
    ∧ (trackerField 2 3).length = 2 * 3 := by
  have h := C7_field_exchange ["S", "S", "T"] 0 2 1 2 3 1 4 (by decide)
    (by decide) (by decide) (by decide) (by decide) (by decide)
  refine ⟨?_, h.2.2.2.2.2.2.1⟩
  rw [h.2.2.2.2.2.1]
  decide
